import Mathlib

/-!
Verification of the pipeline operator-expression compiler of `restack_gen`
(`src/restack_gen/generators/pipeline.py`), embedded shallowly: strings are
`List Char`, the tokenizer/parser/validator/compiler are executable Lean
functions mirroring the Python source line by line, and the generator
front-end is modelled with an explicit write log.
-/

namespace RestackGen

/-- Convert a string literal to the `List Char` representation used throughout. -/
def chars (s : String) : List Char := s.data

/-- Python regex `\s` character class (space, tab, newline, CR, vertical tab, form feed). -/
def isSpace (c : Char) : Bool :=
  c = ' ' || c = '\t' || c = '\n' || c = '\r' || c = '\x0b' || c = '\x0c'

/-- First character of an identifier: `[A-Za-z_]`. -/
def isIdentStart (c : Char) : Bool := c.isAlpha || c = '_'

/-- Subsequent identifier characters: `[A-Za-z0-9_]`. -/
def isIdentChar (c : Char) : Bool := c.isAlpha || c.isDigit || c = '_'

/-- Python `str.replace(pat, rep)` scanning left to right over the string and
replacing every non-overlapping occurrence of the pattern `p :: ps` (nonempty
by construction).  A positive `skip` records how many characters of a
just-matched pattern remain to be consumed, which keeps the recursion
structural on the string. -/
def replaceAllAux (p : Char) (ps rep : List Char) : Nat → List Char → List Char
  | _, [] => []
  | Nat.succ skip, _ :: rest => replaceAllAux p ps rep skip rest
  | 0, c :: rest =>
    if (p :: ps).isPrefixOf (c :: rest) then
      rep ++ replaceAllAux p ps rep ps.length rest
    else
      c :: replaceAllAux p ps rep 0 rest

/-- Python `str.replace(pat, rep)` for the nonempty pattern `p :: ps`. -/
def replaceAll (p : Char) (ps rep : List Char) (l : List Char) : List Char :=
  replaceAllAux p ps rep 0 l

/-- `_tokenize` normalization step:
`expr.replace("→?", "->?").replace("→", "->").replace("⇄", "||")`. -/
def normalize (expr : List Char) : List Char :=
  replaceAll '⇄' [] ['|', '|']
    (replaceAll '→' [] ['-', '>']
      (replaceAll '→' ['?'] ['-', '>', '?'] expr))

/-- A token is the matched lexeme string, as in the Python implementation. -/
abbrev Token := List Char

/-- The scan performed by `re.findall(r"\s*(->\?|->|\|\||[A-Za-z_][A-Za-z0-9_]*|[()])\s*", ...)`:
at each position the ordered alternatives are tried (longest operator first,
greedy identifiers); a character that starts no alternative — whitespace and
stray characters alike — is skipped and scanning resumes at the next position,
exactly as `re.findall` advances by one character on a failed match. -/
def tokenizeFuel : Nat → List Char → List Token
  | 0, _ => []
  | Nat.succ _, [] => []
  | Nat.succ fuel, '-' :: '>' :: '?' :: rest => chars "->?" :: tokenizeFuel fuel rest
  | Nat.succ fuel, '-' :: '>' :: rest => chars "->" :: tokenizeFuel fuel rest
  | Nat.succ fuel, '|' :: '|' :: rest => chars "||" :: tokenizeFuel fuel rest
  | Nat.succ fuel, '(' :: rest => chars "(" :: tokenizeFuel fuel rest
  | Nat.succ fuel, ')' :: rest => chars ")" :: tokenizeFuel fuel rest
  | Nat.succ fuel, c :: rest =>
    if isIdentStart c then
      (c :: rest.takeWhile isIdentChar) :: tokenizeFuel fuel (rest.dropWhile isIdentChar)
    else
      tokenizeFuel fuel rest

/-- The scan, with fuel set to the string length: every step consumes at least
one character and one unit of fuel, so the fuel never runs out. -/
def tokenizeAux (l : List Char) : List Token := tokenizeFuel l.length l

/-- Failure kinds of the core, distinguishing the `ValueError` messages raised
by `_tokenize`, `_eat`, `_parse_expression`, `_parse_primary` and
`_validate_steps_unique`.  `fuelOut` is an artifact of the termination fuel of
the embedded parser and corresponds to no source behaviour. -/
inductive PErr
  /-- "Operator expression is empty or invalid" -/
  | emptyExpression
  /-- "Unexpected tokens at end of expression" -/
  | trailingTokens
  /-- "Unexpected end of expression" -/
  | unexpectedEnd
  /-- "Expected '{value}', got '{tok}'" -/
  | expectedToken (want got : Token)
  /-- "Invalid token '{tok}' in expression" -/
  | invalidToken (tok : Token)
  /-- "Duplicate step name detected: {s}" -/
  | duplicateStep (s : List Char)
  /-- embedding artifact: recursion fuel exhausted (never reached with the fuel supplied) -/
  | fuelOut
deriving DecidableEq, Repr

/-- `_tokenize`: normalize, scan, and fail on an empty token list. -/
def tokenizeE (expr : List Char) : Except PErr (List Token) :=
  let tokens := tokenizeAux (normalize expr)
  if tokens = [] then Except.error PErr.emptyExpression else Except.ok tokens

/-- AST node, the tagged union `StepNode`/`SeqNode`/`OptNode`/`ParNode`. -/
inductive Node
  | step (name : List Char)
  | seq (left right : Node)
  | opt (left right : Node)
  | par (left right : Node)
deriving DecidableEq, Repr

/-- `_peek`: the token at the current position, if any. -/
def peek (ts : List Token) (pos : Nat) : Option Token := ts[pos]?

/-- `_eat`: consume the current token, optionally requiring a specific value. -/
def eatTok (ts : List Token) (pos : Nat) (value : Option Token) :
    Except PErr (Token × Nat) :=
  match peek ts pos with
  | none => Except.error PErr.unexpectedEnd
  | some tok =>
    match value with
    | some v =>
      if tok = v then Except.ok (tok, pos + 1)
      else Except.error (PErr.expectedToken v tok)
    | none => Except.ok (tok, pos + 1)

/-- Full-match test for `re.match(r"^[A-Za-z_][A-Za-z0-9_]*$", tok)`. -/
def isIdentTok (t : Token) : Bool :=
  match t with
  | [] => false
  | c :: rest => isIdentStart c && rest.all isIdentChar

/-- Tag naming which of the mutually recursive parser productions is being
run; the loop tags carry the accumulated left operand of the corresponding
`while` loop in the Python method. -/
inductive ParseRule
  | parallelR
  | parLoopR (acc : Node)
  | sequenceR
  | seqLoopR (acc : Node)
  | optionalR
  | optLoopR (acc : Node)
  | primaryR

/-- The recursive-descent parser `_parse_parallel` / `_parse_sequence` /
`_parse_optional` / `_parse_primary`, with the mutual recursion flattened into
one function dispatching on `ParseRule` so that the recursion is structural on
the fuel (the Python implementation recurses on the instance's `_pos` cursor;
termination here is by fuel, which `parseFuel` makes ample). -/
def parseF : Nat → ParseRule → List Token → Nat → Except PErr (Node × Nat)
  | 0, _, _, _ => Except.error PErr.fuelOut
  -- `_parse_parallel`: `parallel := sequence ('||' sequence)*`
  | Nat.succ fuel, ParseRule.parallelR, ts, pos => do
    let (node, p) ← parseF fuel ParseRule.sequenceR ts pos
    parseF fuel (ParseRule.parLoopR node) ts p
  -- the `while self._peek() == "||"` loop of `_parse_parallel`
  | Nat.succ fuel, ParseRule.parLoopR node, ts, pos =>
    if peek ts pos = some (chars "||") then do
      let (_, p1) ← eatTok ts pos (some (chars "||"))
      let (rhs, p2) ← parseF fuel ParseRule.sequenceR ts p1
      parseF fuel (ParseRule.parLoopR (Node.par node rhs)) ts p2
    else
      Except.ok (node, pos)
  -- `_parse_sequence`: `sequence := optional ('->' optional)*`
  | Nat.succ fuel, ParseRule.sequenceR, ts, pos => do
    let (node, p) ← parseF fuel ParseRule.optionalR ts pos
    parseF fuel (ParseRule.seqLoopR node) ts p
  -- the `while self._peek() == "->"` loop of `_parse_sequence`
  | Nat.succ fuel, ParseRule.seqLoopR node, ts, pos =>
    if peek ts pos = some (chars "->") then do
      let (_, p1) ← eatTok ts pos (some (chars "->"))
      let (rhs, p2) ← parseF fuel ParseRule.optionalR ts p1
      parseF fuel (ParseRule.seqLoopR (Node.seq node rhs)) ts p2
    else
      Except.ok (node, pos)
  -- `_parse_optional`: `optional := primary ('->?' primary)*`
  | Nat.succ fuel, ParseRule.optionalR, ts, pos => do
    let (node, p) ← parseF fuel ParseRule.primaryR ts pos
    parseF fuel (ParseRule.optLoopR node) ts p
  -- the `while self._peek() == "->?"` loop of `_parse_optional`
  | Nat.succ fuel, ParseRule.optLoopR node, ts, pos =>
    if peek ts pos = some (chars "->?") then do
      let (_, p1) ← eatTok ts pos (some (chars "->?"))
      let (rhs, p2) ← parseF fuel ParseRule.primaryR ts p1
      parseF fuel (ParseRule.optLoopR (Node.opt node rhs)) ts p2
    else
      Except.ok (node, pos)
  -- `_parse_primary`: `primary := IDENTIFIER | '(' parallel ')'`
  | Nat.succ fuel, ParseRule.primaryR, ts, pos =>
    match peek ts pos with
    | none => Except.error PErr.unexpectedEnd
    | some tok =>
      if tok = chars "(" then do
        let (_, p1) ← eatTok ts pos (some (chars "("))
        let (node, p2) ← parseF fuel ParseRule.parallelR ts p1
        let (_, p3) ← eatTok ts p2 (some (chars ")"))
        Except.ok (node, p3)
      else if isIdentTok tok then do
        let (_, p1) ← eatTok ts pos none
        Except.ok (Node.step tok, p1)
      else
        Except.error (PErr.invalidToken tok)

/-- `_parse_parallel`, the entry production of the parser. -/
def parseParallelF (fuel : Nat) (ts : List Token) (pos : Nat) :
    Except PErr (Node × Nat) :=
  parseF fuel ParseRule.parallelR ts pos

/-- Fuel amply covering the recursion depth of the parser on a token list. -/
def parseFuel (ts : List Token) : Nat := 4 * ts.length + 8

/-- The body of `_parse_expression` after tokenizing: parse from position 0 and
require that every token was consumed. -/
def parseTokens (ts : List Token) : Except PErr Node := do
  let (node, pos) ← parseParallelF (parseFuel ts) ts 0
  if pos ≠ ts.length then Except.error PErr.trailingTokens
  else Except.ok node

/-- `_parse_expression`: tokenize then parse. -/
def parseExpression (expr : List Char) : Except PErr Node := do
  let tokens ← tokenizeE expr
  parseTokens tokens

/-- The generator object as the parser sees it: the Python methods store the
token list in `self._tokens` and the cursor in `self._pos`; every other
attribute of the generator is abstracted as `other` and is never read or
written by the parsing methods. -/
structure GenState (α : Type) where
  tokens : List Token
  pos : Nat
  other : α

/-- `_parse_expression` acting on the generator object: assign `self._tokens`
and `self._pos = 0`, run `_parse_parallel`, and check that every token was
consumed, returning the updated object alongside the AST. -/
def parseExpressionS {α : Type} (g : GenState α) (expr : List Char) :
    Except PErr (Node × GenState α) := do
  let tokens ← tokenizeE expr
  let g1 : GenState α := { g with tokens := tokens, pos := 0 }
  let (node, p) ← parseParallelF (parseFuel g1.tokens) g1.tokens g1.pos
  if p ≠ g1.tokens.length then Except.error PErr.trailingTokens
  else Except.ok (node, { g1 with pos := p })

/-- The `other` component of the generator after a parse, with a default for
the error case (where no updated object exists). -/
def otherAfter {α : Type} : Except PErr (Node × GenState α) → α → α
  | Except.ok (_, g), _ => g.other
  | Except.error _, d => d

/-- The `_walk` of `_collect_steps`, in traversal order (left then right).
The Python function accumulates these names into a `set`. -/
def collectSteps : Node → List (List Char)
  | Node.step name => [name]
  | Node.seq l r => collectSteps l ++ collectSteps r
  | Node.opt l r => collectSteps l ++ collectSteps r
  | Node.par l r => collectSteps l ++ collectSteps r

/-- `_collect_steps` returns a `set`: the collected names with duplicates
removed. -/
def stepNameSet (n : Node) : List (List Char) := (collectSteps n).dedup

/-- Lexicographic (code-point) order on strings, as used by Python `sorted`. -/
def lexLe : List Char → List Char → Bool
  | [], _ => true
  | _ :: _, [] => false
  | a :: as, b :: bs => if a < b then true else if a = b then lexLe as bs else false

/-- Insert into a sorted list (helper for `sortNames`). -/
def insertSorted (x : List Char) : List (List Char) → List (List Char)
  | [] => [x]
  | y :: rest => if lexLe x y then x :: y :: rest else y :: insertSorted x rest

/-- Python `sorted` on a collection of step names (insertion sort). -/
def sortNames : List (List Char) → List (List Char)
  | [] => []
  | x :: rest => insertSorted x (sortNames rest)

/-- The loop of `_validate_steps_unique`, threading the `seen` set. -/
def validateStepsGo : List (List Char) → List (List Char) → Except PErr Unit
  | _, [] => Except.ok ()
  | seen, s :: rest =>
    if s ∈ seen then Except.error (PErr.duplicateStep s)
    else validateStepsGo (s :: seen) rest

/-- `_validate_steps_unique`: fail on the first name already seen. -/
def validateStepsUnique (steps : List (List Char)) : Except PErr Unit :=
  validateStepsGo [] steps

/-- First regex pass of `_snake_case`: `re.sub(r"(.)([A-Z][a-z]+)", r"\1_\2", v)`
(scan left to right, non-overlapping, greedy lowercase run). -/
def snakeSub1F : Nat → List Char → List Char
  | 0, l => l
  | Nat.succ _, [] => []
  | Nat.succ _, [c] => [c]
  | Nat.succ fuel, c1 :: c2 :: rest =>
    if c2.isUpper && (rest.takeWhile Char.isLower ≠ []) then
      c1 :: '_' :: c2 :: rest.takeWhile Char.isLower
        ++ snakeSub1F fuel (rest.dropWhile Char.isLower)
    else
      c1 :: snakeSub1F fuel (c2 :: rest)

/-- First regex pass of `_snake_case`, with fuel set to the string length
(every step consumes at least one character and one unit of fuel). -/
def snakeSub1 (l : List Char) : List Char := snakeSub1F l.length l

/-- Second regex pass of `_snake_case`: `re.sub(r"([a-z0-9])([A-Z])", r"\1_\2", v)`. -/
def snakeSub2 : List Char → List Char
  | [] => []
  | [c] => [c]
  | c1 :: c2 :: rest =>
    if (c1.isLower || c1.isDigit) && c2.isUpper then
      c1 :: '_' :: c2 :: snakeSub2 rest
    else
      c1 :: snakeSub2 (c2 :: rest)

/-- `_snake_case`: the two regex passes, then `.replace("-", "_").lower()`. -/
def snakeCase (s : List Char) : List Char :=
  ((snakeSub2 (snakeSub1 s)).map fun c => if c = '-' then '_' else c).map Char.toLower

/-- `new_branch_name`: `_branch_<i>` for the incremented counter value. -/
def branchName (i : Nat) : List Char := chars "_branch_" ++ (Nat.repr i).data

/-- `" " * indent`. -/
def indentPad (n : Nat) : List Char := List.replicate n ' '

/-- `"\n".join(lines)`. -/
def joinLines (lines : List (List Char)) : List Char := List.intercalate ['\n'] lines

/-- Python `pat in line` substring test. -/
def containsSub (pat : List Char) : List Char → Bool
  | [] => pat.isPrefixOf []
  | c :: rest => pat.isPrefixOf (c :: rest) || containsSub pat rest

/-- Python `line.replace(pat, rep, 1)`: replace the leftmost occurrence only. -/
def replaceFirstOcc (pat rep : List Char) : List Char → List Char
  | [] => []
  | c :: rest =>
    if pat.isPrefixOf (c :: rest) then rep ++ (c :: rest).drop pat.length
    else c :: replaceFirstOcc pat rep rest

/-- The per-line transform applied to helper bodies in the `OptNode` branch:
`line.replace("await ", "return await ", 1) if "await " in line else line`. -/
def retAwaitLine (line : List Char) : List Char :=
  if containsSub (chars "await ") line then
    replaceFirstOcc (chars "await ") (chars "return await ") line
  else line

/-- `compile_node`: returns `(lines, prelude, counter)` where the Python
version threads the counter through the mutable `counter` dict.  The
`OptNode` branch mirrors the source exactly: it compiles the left child once
at the current indent (discarding the lines but keeping the prelude), then
allocates a helper name, re-compiles the left child at `indent + 4` into the
helper, and returns `prelude + l_prelude + h_prelude + r_prelude`. -/
def compileNode : Node → Nat → Nat → List (List Char) × List (List Char) × Nat
  | Node.step name, indent, k =>
    ([indentPad indent ++ chars "await step_" ++ snakeCase name ++ chars "(ctx)"], [], k)
  | Node.seq l r, indent, k =>
    let (lLines, lPrelude, k1) := compileNode l indent k
    let (rLines, rPrelude, k2) := compileNode r indent k1
    (lLines ++ rLines, lPrelude ++ rPrelude, k2)
  | Node.opt l r, indent, k =>
    let (_lLines, lPrelude, k1) := compileNode l indent k
    let helperName := branchName (k1 + 1)
    let (hLines, hPrelude, k2) := compileNode l (indent + 4) (k1 + 1)
    let helperDef :=
      indentPad indent ++ chars "async def " ++ helperName ++ chars "():" ++ ['\n']
        ++ joinLines hPrelude ++ (if hPrelude = [] then [] else ['\n'])
        ++ joinLines (hLines.map retAwaitLine) ++ ['\n']
    let lines :=
      [indentPad indent ++ chars "left_result = await " ++ helperName ++ chars "()",
       indentPad indent ++ chars "if left_result is not None:"]
    let (rLines, rPrelude, k3) := compileNode r (indent + 4) k2
    (lines ++ rLines, [helperDef] ++ lPrelude ++ hPrelude ++ rPrelude, k3)
  | Node.par l r, indent, k =>
    let leftHelper := branchName (k + 1)
    let rightHelper := branchName (k + 2)
    let (lLines, lPrelude, k1) := compileNode l (indent + 4) (k + 2)
    let (rLines, rPrelude, k2) := compileNode r (indent + 4) k1
    let leftDef :=
      indentPad indent ++ chars "async def " ++ leftHelper ++ chars "():" ++ ['\n']
        ++ joinLines lPrelude ++ (if lPrelude = [] then [] else ['\n'])
        ++ joinLines lLines ++ ['\n']
    let rightDef :=
      indentPad indent ++ chars "async def " ++ rightHelper ++ chars "():" ++ ['\n']
        ++ joinLines rPrelude ++ (if rPrelude = [] then [] else ['\n'])
        ++ joinLines rLines ++ ['\n']
    let lines :=
      [indentPad indent ++ chars "await asyncio.gather(" ++ leftHelper
        ++ chars "(), " ++ rightHelper ++ chars "())"]
    (lines, [leftDef, rightDef], k2)

/-- `_compile_execution`: compile at indent 8 with a fresh counter, then
assemble prelude, lines, and the trailing progress-counter line. -/
def compileExecution (node : Node) : List Char :=
  let (lines, prelude, _) := compileNode node 8 0
  let assembled :=
    prelude ++ lines ++ [indentPad 8 ++ chars "steps_completed = len(ctx[\x27order\x27])"]
  joinLines assembled ++ ['\n']

/-- The core stage of `PipelineGenerator.generate` when an operator expression
is present: parse, collect the (sorted, deduplicated) step names, validate
uniqueness, compile. -/
def runCore (expr : List Char) : Except PErr (List (List Char) × List Char) := do
  let astRoot ← parseExpression expr
  let steps := sortNames (stepNameSet astRoot)
  let _ ← validateStepsUnique steps
  Except.ok (steps, compileExecution astRoot)

/-- Number of occurrences (at every position) of a pattern in a string. -/
def countSub (pat : List Char) : List Char → Nat
  | [] => 0
  | c :: rest => (if pat.isPrefixOf (c :: rest) then 1 else 0) + countSub pat rest

/-- Two raw expressions that differ only in writing the Unicode glyphs
`→?`, `→`, `⇄` in place of their ASCII forms `->?`, `->`, `||`:
`GlyphVariant s t` relates an expression `s` to the variant `t` in which some
ASCII operator occurrences are written as glyphs. -/
inductive GlyphVariant : List Char → List Char → Prop
  | nil : GlyphVariant [] []
  | cons (c : Char) {s t : List Char} :
      GlyphVariant s t → GlyphVariant (c :: s) (c :: t)
  | optGlyph {s t : List Char} :
      GlyphVariant s t → GlyphVariant ('-' :: '>' :: '?' :: s) ('→' :: '?' :: t)
  | seqGlyph {s t : List Char} :
      GlyphVariant s t → GlyphVariant ('-' :: '>' :: s) ('→' :: t)
  | parGlyph {s t : List Char} :
      GlyphVariant s t → GlyphVariant ('|' :: '|' :: s) ('⇄' :: t)

/-- Python keyword list (`keyword.kwlist`). -/
def pyKeywords : List (List Char) :=
  [chars "False", chars "None", chars "True", chars "and", chars "as",
   chars "assert", chars "async", chars "await", chars "break", chars "class",
   chars "continue", chars "def", chars "del", chars "elif", chars "else",
   chars "except", chars "finally", chars "for", chars "from", chars "global",
   chars "if", chars "import", chars "in", chars "is", chars "lambda",
   chars "nonlocal", chars "not", chars "or", chars "pass", chars "raise",
   chars "return", chars "try", chars "while", chars "with", chars "yield"]

/-- `COMPONENT_NAME_PATTERN = re.compile(r"^[A-Z][a-zA-Z0-9]*$")`. -/
def componentNamePat (s : List Char) : Bool :=
  match s with
  | [] => false
  | c :: rest => c.isUpper && rest.all fun x => x.isAlpha || x.isDigit

/-- `validate_component_name` produces no issues: the PascalCase pattern
matches and the lowercased name is not a Python keyword. -/
def validComponentName (name : List Char) : Bool :=
  componentNamePat name && !(pyKeywords.contains (name.map Char.toLower))

/-- Path of the generated pipeline file: `workflows/<snake_case(name)>.py`. -/
def workflowPath (name : List Char) : List Char :=
  chars "workflows/" ++ snakeCase name ++ chars ".py"

/-- Path of the generated smoke-test file: `tests/test_<snake_case(name)>.py`. -/
def testPath (name : List Char) : List Char :=
  chars "tests/test_" ++ snakeCase name ++ chars ".py"

/-- The expression stage of `generate`: run the core when
`operators and operators.strip()` is truthy, otherwise skip it (the stub
fragment path). -/
def coreStage (operators : Option (List Char)) : Except PErr Unit :=
  match operators with
  | some ops =>
    if ops.any (fun c => !(isSpace c)) then (runCore ops).map fun _ => ()
    else Except.ok ()
  | none => Except.ok ()

/-- Errors raised by `PipelineGenerator.generate`: the `ValueError` for an
invalid name, the core `ValueError`s, and `FileExistsError`. -/
inductive GenErr
  | invalidName
  | coreErr (e : PErr)
  | fileExistsErr (path : List Char)
deriving DecidableEq, Repr

/-- `PipelineGenerator.generate`, modelled over an explicit file system `fs`
(the list of paths that already exist) and returning the ordered log of file
writes performed together with the outcome.  Mirrors the source's control
flow: name validation, the optional core stage, the exists/force check on the
pipeline file, the pipeline write, and the guarded test-file write.  Template
rendering and the package-name lookup are read-only collaborators and are
elided. -/
def generate (fs : List (List Char)) (name : List Char)
    (operators : Option (List Char)) (withTests force : Bool) :
    List (List Char) × Except GenErr Unit :=
  if !(validComponentName name) then ([], Except.error GenErr.invalidName)
  else
    match coreStage operators with
    | Except.error e => ([], Except.error (GenErr.coreErr e))
    | Except.ok _ =>
      let workflowFile := workflowPath name
      if fs.contains workflowFile && !force then
        ([], Except.error (GenErr.fileExistsErr workflowFile))
      else
        let testFile := testPath name
        if withTests && (!(fs.contains testFile) || force) then
          ([workflowFile, testFile], Except.ok ())
        else
          ([workflowFile], Except.ok ())

instance : DecidableEq (Except PErr Node) := fun a b =>
  match a, b with
  | Except.ok x, Except.ok y =>
    if h : x = y then isTrue (by rw [h]) else isFalse (by simp [h])
  | Except.error x, Except.error y =>
    if h : x = y then isTrue (by rw [h]) else isFalse (by simp [h])
  | Except.ok _, Except.error _ => isFalse (by simp)
  | Except.error _, Except.ok _ => isFalse (by simp)

set_option maxRecDepth 100000

/-! ### Helper lemmas about `replaceAll` and `normalize` -/

theorem isPrefixOf_cons_ne {p c : Char} (ps l : List Char) (h : p ≠ c) :
    ((p :: ps).isPrefixOf (c :: l)) = false := by
  have hpc : (p == c) = false := beq_eq_false_iff_ne.mpr h
  simp [List.isPrefixOf, hpc]

theorem isPrefixOf_self_append (a l : List Char) :
    (a.isPrefixOf (a ++ l)) = true := by
  induction a with
  | nil => simp [List.isPrefixOf]
  | cons c a ih => simp [List.isPrefixOf, ih]

theorem replaceAllAux_skip (p : Char) (ps rep : List Char) (a l : List Char) :
    replaceAllAux p ps rep a.length (a ++ l) = replaceAllAux p ps rep 0 l := by
  induction a with
  | nil => rfl
  | cons c a ih =>
    simp only [List.length_cons, List.cons_append, replaceAllAux]
    exact ih

theorem replaceAll_keep_head (p : Char) (ps rep : List Char) (c : Char)
    (l : List Char) (hpre : ((p :: ps).isPrefixOf (c :: l)) = false) :
    replaceAll p ps rep (c :: l) = c :: replaceAll p ps rep l := by
  show replaceAllAux p ps rep 0 (c :: l) = c :: replaceAllAux p ps rep 0 l
  rw [show replaceAllAux p ps rep 0 (c :: l)
      = if (p :: ps).isPrefixOf (c :: l) then
          rep ++ replaceAllAux p ps rep ps.length l
        else c :: replaceAllAux p ps rep 0 l from rfl]
  rw [hpre]
  simp

theorem replaceAll_pass (p : Char) (ps rep : List Char) (c : Char) (l : List Char)
    (h : c ≠ p) :
    replaceAll p ps rep (c :: l) = c :: replaceAll p ps rep l :=
  replaceAll_keep_head p ps rep c l (isPrefixOf_cons_ne ps l (Ne.symm h))

theorem replaceAll_fire (p : Char) (ps rep l : List Char) :
    replaceAll p ps rep (p :: (ps ++ l)) = rep ++ replaceAll p ps rep l := by
  show replaceAllAux p ps rep 0 (p :: (ps ++ l)) = rep ++ replaceAllAux p ps rep 0 l
  have hpre : ((p :: ps).isPrefixOf (p :: (ps ++ l))) = true := by
    simp [List.isPrefixOf, isPrefixOf_self_append ps l]
  simp only [replaceAllAux, hpre, if_true]
  rw [replaceAllAux_skip]

theorem norm_plain (c : Char) (h1 : c ≠ '→') (h2 : c ≠ '⇄') (l : List Char) :
    normalize (c :: l) = c :: normalize l := by
  unfold normalize
  rw [replaceAll_pass _ _ _ _ _ h1, replaceAll_pass _ _ _ _ _ h1,
    replaceAll_pass _ _ _ _ _ h2]

theorem norm_glyph_opt (l : List Char) :
    normalize ('→' :: '?' :: l) = '-' :: '>' :: '?' :: normalize l := by
  unfold normalize
  rw [show ('→' :: '?' :: l : List Char) = '→' :: (['?'] ++ l) from rfl,
    replaceAll_fire]
  rw [show ((['-', '>', '?'] : List Char) ++ replaceAll '→' ['?'] ['-', '>', '?'] l)
      = '-' :: '>' :: '?' :: replaceAll '→' ['?'] ['-', '>', '?'] l from rfl]
  rw [replaceAll_pass _ _ _ _ _ (by decide), replaceAll_pass _ _ _ _ _ (by decide),
    replaceAll_pass _ _ _ _ _ (by decide)]
  rw [replaceAll_pass _ _ _ _ _ (by decide), replaceAll_pass _ _ _ _ _ (by decide),
    replaceAll_pass _ _ _ _ _ (by decide)]

theorem norm_glyph_seq (l : List Char) (h : l.head? ≠ some '?') :
    normalize ('→' :: l) = '-' :: '>' :: normalize l := by
  cases l with
  | nil => rfl
  | cons c l2 =>
    have hc : c ≠ '?' := by
      intro hh
      exact h (by simp [hh])
    unfold normalize
    have hqc : (('?' : Char) == c) = false := beq_eq_false_iff_ne.mpr (Ne.symm hc)
    have hpre : ((['→', '?'] : List Char).isPrefixOf ('→' :: c :: l2)) = false := by
      simp [List.isPrefixOf, hqc]
    rw [replaceAll_keep_head _ _ _ _ _ hpre]
    rw [show ('→' :: replaceAll '→' ['?'] ['-', '>', '?'] (c :: l2) : List Char)
        = '→' :: ([] ++ replaceAll '→' ['?'] ['-', '>', '?'] (c :: l2)) from rfl,
      replaceAll_fire]
    rw [show ((['-', '>'] : List Char)
          ++ replaceAll '→' [] ['-', '>'] (replaceAll '→' ['?'] ['-', '>', '?'] (c :: l2)))
        = '-' :: '>'
          :: replaceAll '→' [] ['-', '>'] (replaceAll '→' ['?'] ['-', '>', '?'] (c :: l2))
        from rfl]
    rw [replaceAll_pass _ _ _ _ _ (by decide), replaceAll_pass _ _ _ _ _ (by decide)]

theorem norm_glyph_par (l : List Char) :
    normalize ('⇄' :: l) = '|' :: '|' :: normalize l := by
  unfold normalize
  rw [replaceAll_pass _ _ _ _ _ (by decide), replaceAll_pass _ _ _ _ _ (by decide)]
  rw [show ('⇄' :: replaceAll '→' [] ['-', '>'] (replaceAll '→' ['?'] ['-', '>', '?'] l)
        : List Char)
      = '⇄' :: ([] ++ replaceAll '→' [] ['-', '>'] (replaceAll '→' ['?'] ['-', '>', '?'] l))
      from rfl,
    replaceAll_fire]
  rfl

/-! ### Helper lemmas about `GlyphVariant` -/

theorem gv_nil {t : List Char} (h : GlyphVariant [] t) : t = [] := by
  cases h; rfl

theorem gv_head_q {s t : List Char} (h : GlyphVariant s t) :
    (s.head? = some '?') ↔ (t.head? = some '?') := by
  cases h <;> simp

theorem normalize_of_glyphVariant {s t : List Char} (h : GlyphVariant s t) :
    normalize s = normalize t := by
  induction h with
  | nil => rfl
  | @cons c s t hst ih =>
    by_cases hc1 : c = '→'
    · subst hc1
      cases s with
      | nil =>
        have ht : t = [] := gv_nil hst
        subst ht; rfl
      | cons c1 s2 =>
        by_cases hq : c1 = '?'
        · subst hq
          have htq : t.head? = some '?' := (gv_head_q hst).mp (by simp)
          cases t with
          | nil => simp at htq
          | cons d t2 =>
            have hd : d = '?' := by simpa using htq
            subst hd
            rw [norm_glyph_opt, norm_glyph_opt]
            have h2 := ih
            rw [norm_plain '?' (by decide) (by decide),
              norm_plain '?' (by decide) (by decide)] at h2
            simp only [List.cons.injEq, true_and] at h2
            rw [h2]
        · have hth : t.head? ≠ some '?' := fun hh => by
            have hsq := (gv_head_q hst).mpr hh
            simp at hsq
            exact hq hsq
          rw [norm_glyph_seq _ (by simp [hq]), norm_glyph_seq _ hth, ih]
    · by_cases hc2 : c = '⇄'
      · subst hc2; rw [norm_glyph_par, norm_glyph_par, ih]
      · rw [norm_plain c hc1 hc2, norm_plain c hc1 hc2, ih]
  | @optGlyph s t hst ih =>
    rw [norm_plain '-' (by decide) (by decide), norm_plain '>' (by decide) (by decide),
      norm_plain '?' (by decide) (by decide), norm_glyph_opt, ih]
  | @seqGlyph s t hst ih =>
    by_cases hq : t.head? = some '?'
    · cases t with
      | nil => simp at hq
      | cons d t2 =>
        have hd : d = '?' := by simpa using hq
        subst hd
        have hsq : s.head? = some '?' := (gv_head_q hst).mpr (by simp)
        cases s with
        | nil => simp at hsq
        | cons c1 s2 =>
          have hc1 : c1 = '?' := by simpa using hsq
          subst hc1
          rw [norm_plain '-' (by decide) (by decide),
            norm_plain '>' (by decide) (by decide),
            norm_plain '?' (by decide) (by decide), norm_glyph_opt]
          have h2 := ih
          rw [norm_plain '?' (by decide) (by decide),
            norm_plain '?' (by decide) (by decide)] at h2
          simp only [List.cons.injEq, true_and] at h2
          rw [h2]
    · rw [norm_plain '-' (by decide) (by decide), norm_plain '>' (by decide) (by decide),
        norm_glyph_seq _ hq, ih]
  | @parGlyph s t hst ih =>
    rw [norm_plain '|' (by decide) (by decide), norm_plain '|' (by decide) (by decide),
      norm_glyph_par, ih]

/-- The whole core is a function of the normalized expression. -/
theorem runCore_of_normalize_eq {e1 e2 : List Char}
    (h : normalize e1 = normalize e2) : runCore e1 = runCore e2 := by
  simp only [runCore, parseExpression, tokenizeE, h]

theorem except_bind_ok {ε α β : Type} (a : α) (f : α → Except ε β) :
    ((Except.ok a : Except ε α) >>= f) = f a := rfl

/-! ### Claim theorems -/

/-- Claim C1: the claim states that for every valid operator expression the
tokenize-parse-compile pipeline emits exactly one `await step_<name>`
invocation per distinct step name, even when Optional or Parallel nodes are
nested.  Evaluating the code at the failing input `A ->? B ->? C` (nested
Optional nodes, all step names distinct) shows the pipeline succeeds but the
compiled fragment contains the invocation line `await step_a(ctx)` three
times — the `OptNode` branch of `compile_node` returns `l_prelude` and
`h_prelude` in addition to embedding `h_prelude` inside the generated helper —
and also contains the malformed line `left_result = return await ...` once. -/
theorem c1_nested_optional_duplicates_invocations :
    (runCore (chars "A ->? B ->? C")).map
      (fun r => (countSub (chars "await step_a(ctx)") r.2,
                 countSub (chars "left_result = return await") r.2))
      = Except.ok (3, 1) := rfl

/-- Claim C2: the claim states that an expression repeating a step name (such
as `A -> B -> A`) fails validation with a DuplicateStep error before any code
is emitted.  Evaluating the code at that input shows the opposite:
`_collect_steps` returns a set, so the duplicate is erased before
`_validate_steps_unique` runs; the pipeline succeeds, reports the step list
`["A", "B"]`, and emits `await step_a(ctx)` twice, even though the parsed AST
contains two `Step A` leaves. -/
theorem c2_duplicate_step_not_detected :
    parseExpression (chars "A -> B -> A")
      = Except.ok (Node.seq (Node.seq (Node.step (chars "A")) (Node.step (chars "B")))
          (Node.step (chars "A"))) ∧
    (runCore (chars "A -> B -> A")).map
      (fun r => (r.1, countSub (chars "await step_a(ctx)") r.2))
      = Except.ok ([chars "A", chars "B"], 2) :=
  ⟨rfl, rfl⟩

/-- Claim C3, counterexample: the claim states that a non-whitespace substring
matching no lexical class is never silently dropped — either tokenization or
the ensuing parse must fail.  At the concrete input `A @ -> B` the character
`@` is non-whitespace and belongs to no lexical class, yet tokenization
succeeds, producing the tokens `A`, `->`, `B` with the `@` discarded, and the
parse then succeeds as well. -/
theorem c3_counterexample_stray_char_dropped :
    isSpace '@' = false ∧ isIdentStart '@' = false ∧ isIdentChar '@' = false ∧
    containsSub ['@'] (chars "A @ -> B") = true ∧
    tokenizeE (chars "A @ -> B") = Except.ok [chars "A", chars "->", chars "B"] ∧
    parseExpression (chars "A @ -> B")
      = Except.ok (Node.seq (Node.step (chars "A")) (Node.step (chars "B"))) :=
  ⟨rfl, rfl, rfl, rfl, rfl, rfl⟩

/-- Claim C3, amended: tokenization may silently discard characters that match
no lexical class (`re.findall` skips unmatched characters), so an input
containing a stray character can tokenize to a well-formed stream and
parse-and-compile successfully, exactly as if the stray character were absent:
`A @ -> B` is treated as `A -> B`. -/
theorem c3_amended_tokenizer_drops_stray_chars :
    tokenizeE (chars "A @ -> B") = tokenizeE (chars "A -> B") ∧
    runCore (chars "A @ -> B") = runCore (chars "A -> B") :=
  ⟨rfl, rfl⟩

/-- Claim C4: parser precedence is parallel < sequence < optional with
parentheses overriding: `A -> B || C` parses to a Parallel root with left
child `Sequence(A, B)` and right child `Step C`; `A ->? B -> C` parses to
`Sequence(Optional(A, B), C)`; and `A -> (B || C)` parses to
`Sequence(A, Parallel(B, C))`. -/
theorem c4_precedence :
    parseExpression (chars "A -> B || C")
      = Except.ok (Node.par (Node.seq (Node.step (chars "A")) (Node.step (chars "B")))
          (Node.step (chars "C"))) ∧
    parseExpression (chars "A ->? B -> C")
      = Except.ok (Node.seq (Node.opt (Node.step (chars "A")) (Node.step (chars "B")))
          (Node.step (chars "C"))) ∧
    parseExpression (chars "A -> (B || C)")
      = Except.ok (Node.seq (Node.step (chars "A"))
          (Node.par (Node.step (chars "B")) (Node.step (chars "C")))) :=
  ⟨rfl, rfl, rfl⟩

/-- Claim C5: repeated operators at one precedence level fold
left-associatively: `A -> B -> C` parses to `Sequence(Sequence(A, B), C)` and
not to `Sequence(A, Sequence(B, C))`. -/
theorem c5_left_associativity :
    parseExpression (chars "A -> B -> C")
      = Except.ok (Node.seq (Node.seq (Node.step (chars "A")) (Node.step (chars "B")))
          (Node.step (chars "C"))) ∧
    parseExpression (chars "A -> B -> C")
      ≠ Except.ok (Node.seq (Node.step (chars "A"))
          (Node.seq (Node.step (chars "B")) (Node.step (chars "C")))) :=
  ⟨rfl, by decide⟩

/-- Claim C6: Unicode operator aliases are semantically transparent — for any
two expressions that differ only in writing the glyphs `→?`, `→`, `⇄` in
place of `->?`, `->`, `||`, the whole core (tokenize, parse, validate,
compile) produces identical results, since normalization maps both to the
same string. -/
theorem c6_unicode_aliases_transparent {e1 e2 : List Char}
    (h : GlyphVariant e1 e2) : runCore e1 = runCore e2 :=
  runCore_of_normalize_eq (normalize_of_glyphVariant h)

/-- Witness for C6 at the concrete pair `A -> B` and `A → B`. -/
theorem c6_unicode_aliases_transparent_witness :
    GlyphVariant (chars "A -> B") (chars "A → B") ∧
    runCore (chars "A -> B") = runCore (chars "A → B") := by
  have hgv : GlyphVariant (chars "A -> B") (chars "A → B") := by
    show GlyphVariant ['A', ' ', '-', '>', ' ', 'B'] ['A', ' ', '→', ' ', 'B']
    exact GlyphVariant.cons 'A' (GlyphVariant.cons ' '
      (GlyphVariant.seqGlyph (GlyphVariant.cons ' '
        (GlyphVariant.cons 'B' GlyphVariant.nil))))
  exact ⟨hgv, c6_unicode_aliases_transparent hgv⟩

/-- Claim C7: the parser fails with the UnexpectedEnd kind when input ends
mid-expression (`A ->`), with the TrailingTokens kind when tokens remain after
a complete parse (`A -> B)`), and with the expected-token kind (the claim's
UnexpectedToken) when a required token is absent (`(A B)`, where `)` was
expected but `B` found); each failure kind is a deterministic function of the
input, the parser being a pure function. -/
theorem c7_parse_error_kinds :
    parseExpression (chars "A ->") = Except.error PErr.unexpectedEnd ∧
    parseExpression (chars "A -> B)") = Except.error PErr.trailingTokens ∧
    parseExpression (chars "(A B)")
      = Except.error (PErr.expectedToken (chars ")") (chars "B")) :=
  ⟨rfl, rfl, rfl⟩

/-- Claim C8: parsing is free of side effects on the rest of the generator:
the AST produced by `_parse_expression` is the same for any two generator
objects (of possibly different shapes) given the same expression — it is
purely a function of the token sequence, since `_tokens` and `_pos` are
re-initialized on entry — and the parse leaves the abstracted remainder of
the generator state unchanged. -/
theorem c8_parser_pure_and_frame {α β : Type} (g1 : GenState α) (g2 : GenState β)
    (expr : List Char) :
    (parseExpressionS g1 expr).map Prod.fst = (parseExpressionS g2 expr).map Prod.fst ∧
    otherAfter (parseExpressionS g1 expr) g1.other = g1.other := by
  constructor
  · unfold parseExpressionS
    cases htok : tokenizeE expr with
    | error e => rfl
    | ok tokens =>
      simp only [except_bind_ok]
      cases hp : parseParallelF (parseFuel tokens) tokens 0 with
      | error e => rfl
      | ok pr =>
        obtain ⟨node, pos⟩ := pr
        simp only [except_bind_ok]
        by_cases hl : pos = tokens.length
        · simp [hl]
          rfl
        · simp [if_neg hl]
          rfl
  · unfold parseExpressionS
    cases htok : tokenizeE expr with
    | error e => rfl
    | ok tokens =>
      simp only [except_bind_ok]
      cases hp : parseParallelF (parseFuel tokens) tokens 0 with
      | error e => rfl
      | ok pr =>
        obtain ⟨node, pos⟩ := pr
        simp only [except_bind_ok]
        by_cases hl : pos = tokens.length <;> simp [hl, otherAfter]

/-- Claim C9: generation is atomic on core failure — whenever the operator
expression fails at the tokenize, parse, or validate stage, `generate` returns
that single error and the write log is empty (no file is written, not even
partially), because the core runs before any file operation. -/
theorem c9_failure_is_atomic (fs : List (List Char)) (name ops : List Char)
    (withTests force : Bool) (e : PErr)
    (hname : validComponentName name = true)
    (hcore : coreStage (some ops) = Except.error e) :
    generate fs name (some ops) withTests force
      = ([], Except.error (GenErr.coreErr e)) := by
  simp [generate, hname, hcore]

/-- Witness for C9: `A ->` fails the parse with UnexpectedEnd and `generate`
writes nothing. -/
theorem c9_failure_is_atomic_witness :
    validComponentName (chars "Foo") = true ∧
    coreStage (some (chars "A ->")) = Except.error PErr.unexpectedEnd ∧
    generate [] (chars "Foo") (some (chars "A ->")) true false
      = ([], Except.error (GenErr.coreErr PErr.unexpectedEnd)) :=
  ⟨rfl, rfl,
    c9_failure_is_atomic [] (chars "Foo") (chars "A ->") true false
      PErr.unexpectedEnd rfl rfl⟩

/-- Claim C10: when the target pipeline file already exists and `force` is
false, `generate` raises FileExistsError with an empty write log (neither the
pipeline file nor the test file is written); with `force` true the run
succeeds and the existing pipeline file is (over)written. -/
theorem c10_existing_file_guard (fs : List (List Char)) (name : List Char)
    (operators : Option (List Char)) (withTests : Bool)
    (hname : validComponentName name = true)
    (hcore : coreStage operators = Except.ok ())
    (hexists : workflowPath name ∈ fs) :
    generate fs name operators withTests false
      = ([], Except.error (GenErr.fileExistsErr (workflowPath name))) ∧
    (generate fs name operators withTests true).2 = Except.ok () ∧
    workflowPath name ∈ (generate fs name operators withTests true).1 := by
  refine ⟨?_, ?_, ?_⟩
  · simp [generate, hname, hcore, hexists]
  · simp [generate, hname, hcore]
    cases withTests <;> simp
  · simp [generate, hname, hcore]
    cases withTests <;> simp

/-- Witness for C10 with the pipeline file `workflows/foo.py` already
present. -/
theorem c10_existing_file_guard_witness :
    validComponentName (chars "Foo") = true ∧
    coreStage none = Except.ok () ∧
    workflowPath (chars "Foo") ∈ [workflowPath (chars "Foo")] ∧
    (generate [workflowPath (chars "Foo")] (chars "Foo") none true false
      = ([], Except.error (GenErr.fileExistsErr (workflowPath (chars "Foo")))) ∧
    (generate [workflowPath (chars "Foo")] (chars "Foo") none true true).2
      = Except.ok () ∧
    workflowPath (chars "Foo")
      ∈ (generate [workflowPath (chars "Foo")] (chars "Foo") none true true).1) :=
  ⟨rfl, rfl, by simp,
    c10_existing_file_guard [workflowPath (chars "Foo")] (chars "Foo") none true
      rfl rfl (by simp)⟩

end RestackGen
